import Mathlib

/-!
# Verification of the `magics` analysis scripts

Shallow embedding of the core numeric routines of the repository's offline
analysis scripts, together with proofs of the specification claims:

* `scripts/ldj.py` — the Log Dimensionless Jerk smoothness metric;
* `scripts/perpendicular-path-deviation.py` — path-deviation RMSE via
  projection onto a reference polyline (slope–intercept line variant);
* `scripts/utils.py` — the shared vector-form projection helpers with the
  angle-validity test and the distance-threshold fallback;
* `scripts/analyse-junction-scenario.py` — throughput extraction;
* `scripts/analyse-circle-scenario.py` / `scripts/utils.py` — the batch
  per-file processing step with its filename-pattern assertion.

Real-valued (`ℝ`) definitions model the floating-point computations of the
Python/numpy source with exact real arithmetic; Python `assert` failures and
raised exceptions are modelled by `Option`/`none`.
-/

open scoped Real

noncomputable section

open scoped Classical

/-! ## Numpy-style helpers shared by the scripts -/

/-- Euclidean norm of a 2-D vector, `np.linalg.norm` on a row of shape (2,). -/
def npNorm (a : ℝ × ℝ) : ℝ := Real.sqrt (a.1 ^ 2 + a.2 ^ 2)

/-- Model of `np.diff`: consecutive differences `l[i+1] - l[i]`. -/
def npDiff (l : List ℝ) : List ℝ := List.zipWith (fun a b => b - a) l l.tail

/-- Model of `np.mean` of a 1-D array. -/
def npMean (l : List ℝ) : ℝ := l.sum / l.length

/-- Model of `np.max` of a 1-D array (the empty case never occurs at the call sites:
numpy raises there). -/
def npMax : List ℝ → ℝ
  | [] => 0
  | x :: xs => xs.foldl max x

/-- Model of `np.arctan2 a b`: the angle of the point with ordinate `a` and
abscissa `b`, in `(-π, π]`; `Complex.arg ⟨b, a⟩` has exactly these
semantics (including the value `0` at the origin and `π` on the negative
real axis). -/
def arctan2 (a b : ℝ) : ℝ := Complex.arg ⟨b, a⟩

/-- Python's `min(l, key=f)`: the FIRST element of `l` attaining the minimal
key (Python's `min` is stable), `none` on the empty list (where Python
raises `ValueError`). -/
def argminBy {α : Type} (f : α → ℝ) : List α → Option α
  | [] => none
  | x :: xs => some (xs.foldl (fun best y => if f y < f best then y else best) x)

/-- Model of `sliding_window(iterable, 2)` from the scripts: the list of consecutive
pairs. -/
def slidingPairs {α : Type} (l : List α) : List (α × α) := List.zip l l.tail

/-! ## `scripts/perpendicular-path-deviation.py` -/

namespace PPD

/-- The slope–intercept line `y = a*x + b` of the script's `Line` dataclass. -/
structure Line where
  a : ℝ
  b : ℝ

/-- Model of `line_from_line_segment(x1, y1, x2, y2)`. -/
def line_from_line_segment (x1 y1 x2 y2 : ℝ) : Line :=
  let a := (y2 - y1) / (x2 - x1)
  { a := a, b := y1 - a * x1 }

/-- Model of `projection_onto_line(point, line)` (slope–intercept variant). -/
def projection_onto_line (point : ℝ × ℝ) (line : Line) : ℝ × ℝ :=
  let x1 := point.1
  let y1 := point.2
  let xp := (x1 + line.a * (y1 - line.b)) / (line.a * line.a + 1)
  (xp, line.a * xp + line.b)

/-- Model of `closest_projection_onto_line_segments(point, lines)`: the projection of
`point` onto each line, keeping the one closest to `point` (Python's `min`
raises on an empty list, modelled as `none`). -/
def closest_projection_onto_line_segments (point : ℝ × ℝ) (lines : List Line) :
    Option (ℝ × ℝ) :=
  argminBy (fun proj => npNorm (proj - point)) (lines.map (projection_onto_line point))

/-- The per-robot line list built in `main`: one line through each
consecutive pair of waypoints. -/
def linesOfWaypoints (waypoints : List (ℝ × ℝ)) : List Line :=
  (slidingPairs waypoints).map fun se =>
    line_from_line_segment se.1.1 se.1.2 se.2.1 se.2.2

/-- The per-robot RMSE computation of `main`:
`error = np.sum(np.linalg.norm(positions - closest_projections, axis=1))`,
`rmse = np.sqrt(error / len(positions))`; `none` when some position has no
projection (empty line list, where Python raises). -/
def rmseOfRobot (positions : List (ℝ × ℝ)) (waypoints : List (ℝ × ℝ)) : Option ℝ :=
  let lines := linesOfWaypoints waypoints
  (positions.mapM (fun p => closest_projection_onto_line_segments p lines)).map
    fun closest_projections =>
      let error := (List.zipWith (fun p cp => npNorm (p - cp)) positions
        closest_projections).sum
      Real.sqrt (error / positions.length)

end PPD

/-! ## `scripts/utils.py` — vector-form projection helpers -/

namespace Utils

/-- The `LinePoints` dataclass: a segment given by its two endpoints. -/
structure LinePoints where
  start : ℝ × ℝ
  «end» : ℝ × ℝ

/-- Model of `projection_onto_line(point, line)` (vector variant):
`start + (point - start)·v / (v·v) * v` with `v = end - start`. -/
def projection_onto_line (point : ℝ × ℝ) (line : LinePoints) : ℝ × ℝ :=
  let start := line.start
  let line_vector := line.«end» - start
  start + (((point - start).1 * line_vector.1 + (point - start).2 * line_vector.2) /
    (line_vector.1 * line_vector.1 + line_vector.2 * line_vector.2)) • line_vector

/-- Model of `line_is_valid(line_point, point)`: the angle test
`|arctan2(v1) - arctan2(v2)| ≥ π/2` with `v1 = point - start`,
`v2 = point - end` (note the source passes the vector's components to
`np.arctan2` in the order `(x, y)`). -/
def line_is_valid (line_point : LinePoints) (point : ℝ × ℝ) : Prop :=
  let v1 := point - line_point.start
  let v2 := point - line_point.«end»
  |arctan2 v1.1 v1.2 - arctan2 v2.1 v2.2| ≥ π / 2

/-- Model of `closest_projection_onto_line_segments(point, lines)` of `utils.py`:
filter the lines by the angle test, fall back to all lines when none passes,
take the projection closest to `point`, and when that distance exceeds 10
recompute the closest projection over all lines.  `none` exactly when
`lines = []` (Python's `min` raises there). -/
def closest_projection_onto_line_segments (point : ℝ × ℝ)
    (lines : List LinePoints) : Option (ℝ × ℝ) :=
  let valid_lines := lines.filter fun line => decide (line_is_valid line point)
  let valid_lines := if valid_lines.isEmpty then lines else valid_lines
  match argminBy (fun proj => npNorm (proj - point))
      (valid_lines.map (projection_onto_line point)) with
  | none => none
  | some closest_projection =>
    let min_distance := npNorm (closest_projection - point)
    if min_distance > 10 then
      argminBy (fun proj => npNorm (proj - point))
        (lines.map (projection_onto_line point))
    else
      some closest_projection

/-- The direction vector `v = end - start` of a segment. -/
def dir (line : LinePoints) : ℝ × ℝ := line.«end» - line.start

/-- Dot product of 2-D vectors. -/
def dot2 (a b : ℝ × ℝ) : ℝ := a.1 * b.1 + a.2 * b.2

/-- The candidate segments as the specification claim describes them: exactly
the segments passing the angle test, or all segments when no segment
passes. -/
def candidateLines (point : ℝ × ℝ) (lines : List LinePoints) : List LinePoints :=
  if ∃ line ∈ lines, line_is_valid line point then
    lines.filter fun line => decide (line_is_valid line point)
  else lines

/-- The selection procedure exactly as the specification claim describes it:
candidates are the segments passing the angle test, all segments when no
segment passes; the returned value is the candidate projection minimizing
the Euclidean distance to `point`, except that when that minimum distance
exceeds 10 the minimum-distance projection over all segments is returned
instead. -/
def closestProjectionClaim (point : ℝ × ℝ) (lines : List LinePoints) :
    Option (ℝ × ℝ) :=
  let candidates := candidateLines point lines
  match argminBy (fun proj => npNorm (proj - point))
      (candidates.map (projection_onto_line point)) with
  | none => none
  | some best =>
    if npNorm (best - point) > 10 then
      argminBy (fun proj => npNorm (proj - point))
        (lines.map (projection_onto_line point))
    else
      some best

end Utils

/-! ## `scripts/ldj.py` — the Log Dimensionless Jerk metric -/

namespace LDJ

/-- Element access `l[i]` on a numpy 1-D array (defaulting to `0` out of
range; the call sites stay in range). -/
def at' (l : List ℝ) (i : ℕ) : ℝ := l.getD i 0

/-- Model of `np.gradient(f, dt)` for an array of length `≥ 2`: one-sided difference
quotients at the two ends, central differences in the interior (numpy
assembles exactly these three slices; it raises on arrays shorter than 2,
which no guarded call site supplies). -/
def npGradient (f : List ℝ) (dt : ℝ) : List ℝ :=
  let n := f.length
  if n < 2 then [] else
    [(at' f 1 - at' f 0) / dt] ++
      ((List.range (n - 2)).map fun i => (at' f (i + 2) - at' f i) / (2 * dt)) ++
      [(at' f (n - 1) - at' f (n - 2)) / dt]

/-- The gradient estimator as the specification claim words it: central
differences in the interior, one-sided differences at the two boundary
samples. -/
def gradientClaim (f : List ℝ) (dt : ℝ) : List ℝ :=
  (List.range f.length).map fun i =>
    if i = 0 then (at' f 1 - at' f 0) / dt
    else if i = f.length - 1 then (at' f (f.length - 1) - at' f (f.length - 2)) / dt
    else (at' f (i + 1) - at' f (i - 1)) / (2 * dt)

/-- Model of `np.linspace(a, b, n)`: `n` evenly spaced samples from `a` to `b`
inclusive. -/
def linspace (a b : ℝ) (n : ℕ) : List ℝ :=
  (List.range n).map fun i => a + i * ((b - a) / (n - 1))

/-- Model of `scipy.integrate.simpson(y, x=x)` for UNIFORMLY spaced `x` (the only way
`ldj` calls it: `x = linspace(t_start, t_final, N)`): composite Simpson's
rule; with an even number of samples, Simpson's rule on the first `N - 2`
intervals plus Cartwright's 3-point parabolic correction for the last
interval; the trapezoid on 2 samples; `0` on fewer. -/
def simpson (y : List ℝ) (x : List ℝ) : ℝ :=
  let n := y.length
  let h := (x.getLastD 0 - x.headD 0) / (n - 1)
  if n < 2 then 0
  else if n = 2 then h * (at' y 0 + at' y 1) / 2
  else
    let pairs := if n % 2 = 1 then (n - 1) / 2 else (n - 2) / 2
    let main := (h / 3) *
      ((List.range pairs).map fun k =>
        at' y (2 * k) + 4 * at' y (2 * k + 1) + at' y (2 * k + 2)).sum
    if n % 2 = 1 then main
    else main + h * (5 * at' y (n - 1) + 8 * at' y (n - 2) - at' y (n - 3)) / 12

/-- Model of `ldj(velocities, timesteps)`: the body of the Python function after its
asserts pass (total here; `ldjChecked` below models the asserts).
Velocities are rows `[vx, vy]`. -/
def ldj (velocities : List (List ℝ)) (timesteps : List ℝ) : ℝ :=
  let t_start := timesteps.headD 0
  let t_final := timesteps.getLastD 0
  let dt := npMean (npDiff timesteps)
  let vx := velocities.map fun row => row.getD 0 0
  let vy := velocities.map fun row => row.getD 1 0
  let ax := npGradient vx dt
  let ay := npGradient vy dt
  let jx := npGradient ax dt
  let jy := npGradient ay dt
  let squared_jerk := List.zipWith (fun a b => a ^ 2 + b ^ 2) jx jy
  let time_samples := linspace t_start t_final velocities.length
  let integral_squared_jerk := simpson squared_jerk time_samples
  let v_max := npMax (List.zipWith (fun a b => Real.sqrt (a ^ 2 + b ^ 2)) vx vy)
  Neg.neg (Real.log ((t_final - t_start) ^ 3 / v_max ^ 2 * integral_squared_jerk))

/-- Model of `ldj` with the source's `assert` preamble: `len(velocities) > 0`,
`velocities.shape == (N, 2)`, `len(timesteps) == len(velocities)`,
`np.all(np.diff(timesteps) > 0)`, and `t_start < t_final`; a failed assert
(Python `AssertionError`) is `none`.  (`timesteps.shape == (len,)` holds by
construction in the list model.) -/
def ldjChecked (velocities : List (List ℝ)) (timesteps : List ℝ) : Option ℝ :=
  if ¬ 0 < velocities.length then none
  else if ¬ ∀ row ∈ velocities, row.length = 2 then none
  else if ¬ timesteps.length = velocities.length then none
  else if ¬ ∀ d ∈ npDiff timesteps, 0 < d then none
  else if ¬ timesteps.headD 0 < timesteps.getLastD 0 then none
  else some (ldj velocities timesteps)

/-- The LDJ value exactly as the specification claim spells it:
`-ln((t_final - t_start)^3 / v_max^2 * J)`, with `dt` the mean of
consecutive timestamp differences, jerk components obtained by two
successive applications of the claim's gradient estimator
(`gradientClaim`), `J` the Simpson's-rule integral of `jx^2 + jy^2` over
`linspace(t_start, t_final, N)`, and `v_max` the maximum of
`sqrt(vx^2 + vy^2)` over the trace. -/
def ldjClaim (velocities : List (List ℝ)) (timesteps : List ℝ) : ℝ :=
  let t_start := timesteps.headD 0
  let t_final := timesteps.getLastD 0
  let dt := npMean (npDiff timesteps)
  let vx := velocities.map fun row => row.getD 0 0
  let vy := velocities.map fun row => row.getD 1 0
  let jx := gradientClaim (gradientClaim vx dt) dt
  let jy := gradientClaim (gradientClaim vy dt) dt
  let J := simpson (List.zipWith (fun a b => a ^ 2 + b ^ 2) jx jy)
    (linspace t_start t_final velocities.length)
  let v_max := npMax (List.zipWith (fun a b => Real.sqrt (a ^ 2 + b ^ 2)) vx vy)
  Neg.neg (Real.log ((t_final - t_start) ^ 3 / v_max ^ 2 * J))

end LDJ

end

/-! ## `scripts/analyse-junction-scenario.py` — throughput extraction

The fields consumed by `extract_data_from_file` are modelled exactly; the
JSON record's further fields (positions, velocities, colors, …) play no role
in the function and are omitted.  Timestamps are rationals: the function
only compares and divides them, so the computation stays executable. -/

namespace Junction

/-- The `mission` object, restricted to the field the function reads. -/
structure Mission where
  started_at : ℚ

/-- One entry of `data['robots']`, restricted to the field the function
reads. -/
structure RobotData where
  mission : Mission

/-- One entry of `data['goal_areas']`: its `history` maps robot identifiers
to arrival timestamps. -/
structure GoalArea where
  history : List (String × ℚ)

/-- One run record, as consumed by `extract_data_from_file`. -/
structure RunRecord where
  robots : List (String × RobotData)
  goal_areas : List (String × GoalArea)
  makespan : ℚ

/-- Model of `extract_data_from_file`: count the robots whose `started_at` is below
the `ignore_after = 50.0` cutoff and whose identifier appears in some goal
area's `history`, then return `1 / (t / num_robots_reached_goal)` with
`t = ignore_after`.  When the count is `0`, Python's `t / 0` raises
`ZeroDivisionError`, modelled as `none`. -/
def extract_data_from_file (data : RunRecord) : Option ℚ :=
  let goal_areas := data.goal_areas.map Prod.snd
  let ignore_after : ℚ := 50
  let num_robots_reached_goal : ℕ := data.robots.countP fun r =>
    !decide (r.2.mission.started_at ≥ ignore_after) &&
      goal_areas.any fun goal_area => goal_area.history.any fun kv => r.1 == kv.1
  let t : ℚ := ignore_after
  if num_robots_reached_goal = 0 then none
  else some (1 / (t / num_robots_reached_goal))

/-- The count as the specification claim words it: the robots whose mission
start time falls within the 50-second observation window and whose identity
appears in the recorded history of some goal area. -/
def countReachedClaim (data : RunRecord) : ℕ :=
  data.robots.countP fun r =>
    decide (r.2.mission.started_at < 50 ∧
      ∃ ga ∈ data.goal_areas.map Prod.snd, ∃ kv ∈ ga.history, kv.1 = r.1)

end Junction

/-! ## `scripts/analyse-circle-scenario.py` / `utils.py` — batch `process_file`

`process_file` first asserts that the filename matches
`re.compile(r"num-robots-(\d+)-seed-(\d+).json")` (Python `re.match`:
anchored at the start only, `.` matching any character, greedy `\d+` with
backtracking), and only then opens and reads the file.  The file's content
is passed in as an `Option` (a `none` content stands for a file that cannot
be read or parsed), so that "fails before reading" is expressible: a
non-matching name yields `none` whatever the content. -/

namespace Circle

/-- Match a literal character sequence at the head of the input, returning
the remainder. -/
def dropLiteral : List Char → List Char → Option (List Char)
  | [], cs => some cs
  | _ :: _, [] => none
  | l :: ls, c :: cs => if c = l then dropLiteral ls cs else none

/-- The regex tail `.json`: one arbitrary character, then the literal
`json` (Python `re.match` does not anchor the end, so trailing characters
are allowed). -/
def tailDotJson : List Char → Bool
  | [] => false
  | _ :: rest => decide (rest.take 4 = ['j', 's', 'o', 'n'])

/-- The second `\d+` of the pattern followed by `.json`, with the regex
engine's greedy-then-backtrack semantics: prefer consuming more digits, and
fall back to stopping here when the longer attempt fails. -/
def seedDigits : List Char → Option (List Char)
  | [] => none
  | c :: rest =>
    if c.isDigit then
      match seedDigits rest with
      | some ds => some (c :: ds)
      | none => if tailDotJson rest then some [c] else none
    else none

/-- Numeric value of a digit string, `int(...)` on a regex group. -/
def digitsToNat (ds : List Char) : ℕ :=
  ds.foldl (fun n c => 10 * n + (c.toNat - '0'.toNat)) 0

/-- Model of `RE.match(file.name)` for `RE = re.compile(r"num-robots-(\d+)-seed-(\d+).json")`,
returning the two captured groups as numbers, or `none` when the name does
not match.  The first `\d+` is followed by the literal `-`, which is not a
digit, so it deterministically captures the maximal digit run. -/
def parseGroups (name : String) : Option (ℕ × ℕ) :=
  match dropLiteral "num-robots-".toList name.toList with
  | none => none
  | some rest =>
    let spanned := rest.span Char.isDigit
    if spanned.1.isEmpty then none
    else match dropLiteral "-seed-".toList spanned.2 with
      | none => none
      | some rest2 =>
        match seedDigits rest2 with
        | none => none
        | some ds2 => some (digitsToNat spanned.1, digitsToNat ds2)

/-- One velocity measurement: `{timestamp, velocity:[x, y, z]}`. -/
structure Measurement where
  timestamp : ℝ
  velocity : List ℝ

/-- The `mission` object (read into locals by `process_file` but not used
further by it). -/
structure Mission where
  started_at : ℝ
  finished_at : Option ℝ
  duration : ℝ

/-- One entry of `data['robots']` as consumed by `process_file`. -/
structure CircleRobot where
  positions : List (ℝ × ℝ)
  mission : Mission
  velocities : List Measurement

/-- One run record of the circle scenario. -/
structure CircleRun where
  robots : List (String × CircleRobot)
  makespan : ℝ

/-- Model of `process_file` of `utils.py` / `analyse-circle-scenario.py`: assert the
filename pattern (before reading the file), then per robot compute the
distance travelled `np.sum(np.linalg.norm(np.diff(positions, axis=0), axis=1))`
and the LDJ of the planar components `[0, 2]` of the 3-D velocities; return
`(num_robots, distances, makespan, ldjs)`.  A failed filename assert, an
unreadable file, or a robot trace failing `ldj`'s asserts is `none`. -/
noncomputable def process_file (name : String) (content : Option CircleRun) :
    Option (ℕ × List ℝ × ℝ × List ℝ) :=
  match parseGroups name with
  | none => none
  | some (num_robots, _seed) =>
    match content with
    | none => none
    | some data =>
      let distance_travelled_of_each_robot : List ℝ := data.robots.map fun r =>
        (List.zipWith (fun p q => npNorm (q - p)) r.2.positions r.2.positions.tail).sum
      match data.robots.mapM (fun r =>
          LDJ.ldjChecked
            (r.2.velocities.map fun m => [m.velocity.getD 0 0, m.velocity.getD 2 0])
            (r.2.velocities.map fun m => m.timestamp)) with
      | none => none
      | some ldj_of_each_robot =>
        some (num_robots, distance_travelled_of_each_robot, data.makespan,
          ldj_of_each_robot)

end Circle

/-! ## Concrete run records used by witnesses -/

/-- A junction run with ten robots, all starting at time 0, all recorded in
the single goal area's history. -/
def sampleJunctionRun : Junction.RunRecord where
  robots :=
    [("r0", ⟨⟨0⟩⟩), ("r1", ⟨⟨0⟩⟩), ("r2", ⟨⟨0⟩⟩), ("r3", ⟨⟨0⟩⟩), ("r4", ⟨⟨0⟩⟩),
     ("r5", ⟨⟨0⟩⟩), ("r6", ⟨⟨0⟩⟩), ("r7", ⟨⟨0⟩⟩), ("r8", ⟨⟨0⟩⟩), ("r9", ⟨⟨0⟩⟩)]
  goal_areas :=
    [("g", ⟨[("r0", 1), ("r1", 1), ("r2", 1), ("r3", 1), ("r4", 1),
      ("r5", 1), ("r6", 1), ("r7", 1), ("r8", 1), ("r9", 1)]⟩)]
  makespan := 50

/-- A junction run with no robots at all. -/
def emptyJunctionRun : Junction.RunRecord where
  robots := []
  goal_areas := []
  makespan := 0

open scoped Classical

/-! ## Theorems for the claims -/

/-- The running minimum kept by `argminBy`'s fold is an element of the
candidate list. -/
theorem foldl_min_mem {α : Type} (f : α → ℝ) (xs : List α) (x : α) :
    xs.foldl (fun best y => if f y < f best then y else best) x ∈ x :: xs := by
  induction xs generalizing x with
  | nil => simp
  | cons y ys ih =>
    simp only [List.foldl_cons]
    have h := ih (if f y < f x then y else x)
    rcases List.mem_cons.mp h with h1 | h1
    · rw [h1]
      by_cases hc : f y < f x <;> simp [hc]
    · exact List.mem_cons_of_mem _ (List.mem_cons_of_mem _ h1)

/-- The running minimum kept by `argminBy`'s fold has minimal key among the
candidates. -/
theorem foldl_min_le {α : Type} (f : α → ℝ) (xs : List α) (x : α) :
    ∀ b ∈ x :: xs,
      f (xs.foldl (fun best y => if f y < f best then y else best) x) ≤ f b := by
  induction xs generalizing x with
  | nil =>
    intro b hb
    simp only [List.mem_singleton] at hb
    subst hb
    simp
  | cons y ys ih =>
    intro b hb
    simp only [List.foldl_cons]
    have hstep_x : f (if f y < f x then y else x) ≤ f x := by
      by_cases hc : f y < f x <;> simp [hc, le_of_lt]
    have hstep_y : f (if f y < f x then y else x) ≤ f y := by
      by_cases hc : f y < f x <;> simp [hc, le_of_not_lt]
    have hm := ih (if f y < f x then y else x) _ (List.mem_cons_self _ _)
    rcases List.mem_cons.mp hb with h1 | h1
    · exact h1 ▸ hm.trans hstep_x
    rcases List.mem_cons.mp h1 with h2 | h2
    · exact h2 ▸ hm.trans hstep_y
    · exact ih _ b (List.mem_cons_of_mem _ h2)

/-- On a nonempty list `argminBy` returns an element of minimal key. -/
theorem argminBy_eq_some {α : Type} (f : α → ℝ) (l : List α) (h : l ≠ []) :
    ∃ a, argminBy f l = some a ∧ a ∈ l ∧ ∀ b ∈ l, f a ≤ f b := by
  cases l with
  | nil => exact absurd rfl h
  | cons x xs => exact ⟨_, rfl, foldl_min_mem f xs x, foldl_min_le f xs x⟩

/-- The source's empty-filter fallback agrees with the claim's description of
the candidate set. -/
theorem filter_fallback_eq_candidateLines (point : ℝ × ℝ)
    (lines : List Utils.LinePoints) :
    (if (lines.filter fun line => decide (Utils.line_is_valid line point)).isEmpty
      then lines
      else lines.filter fun line => decide (Utils.line_is_valid line point)) =
      Utils.candidateLines point lines := by
  by_cases h : ∃ line ∈ lines, Utils.line_is_valid line point
  · have hne : (lines.filter fun line => decide (Utils.line_is_valid line point)) ≠ [] := by
      obtain ⟨l, hl, hv⟩ := h
      intro hn
      have := List.filter_eq_nil_iff.mp hn l hl
      simp [hv] at this
    rw [if_neg (by simpa [List.isEmpty_iff] using hne)]
    rw [Utils.candidateLines, if_pos h]
  · have hnil : (lines.filter fun line => decide (Utils.line_is_valid line point)) = [] := by
      refine List.filter_eq_nil_iff.mpr ?_
      intro a ha hv
      exact h ⟨a, ha, by simpa using hv⟩
    rw [if_pos (by simp [hnil])]
    rw [Utils.candidateLines, if_neg h]

/-- With `lines` nonempty the candidate set is nonempty. -/
theorem candidateLines_ne_nil (point : ℝ × ℝ) (lines : List Utils.LinePoints)
    (hne : lines ≠ []) : Utils.candidateLines point lines ≠ [] := by
  rw [Utils.candidateLines]
  by_cases h : ∃ line ∈ lines, Utils.line_is_valid line point
  · rw [if_pos h]
    obtain ⟨l, hl, hv⟩ := h
    intro hn
    have := List.filter_eq_nil_iff.mp hn l hl
    simp [hv] at this
  · rwa [if_neg h]

/-- Claim C3: on a non-empty list of non-degenerate segments,
`closest_projection_onto_line_segments` behaves exactly as claimed: its
candidates are the segments passing the angle test (all segments when none
passes), it returns the candidate projection of minimal Euclidean distance
to the point, and when that minimal distance exceeds 10 it instead returns
the minimum-distance projection over all segments. -/
theorem closest_projection_selection_behaviour (point : ℝ × ℝ)
    (lines : List Utils.LinePoints) (hne : lines ≠ [])
    (_hnd : ∀ l ∈ lines, Utils.dot2 (Utils.dir l) (Utils.dir l) ≠ 0) :
    Utils.closest_projection_onto_line_segments point lines =
      Utils.closestProjectionClaim point lines ∧
    ∃ best,
      argminBy (fun proj => npNorm (proj - point))
        ((Utils.candidateLines point lines).map (Utils.projection_onto_line point)) =
        some best ∧
      best ∈ (Utils.candidateLines point lines).map (Utils.projection_onto_line point) ∧
      (∀ q ∈ (Utils.candidateLines point lines).map (Utils.projection_onto_line point),
        npNorm (best - point) ≤ npNorm (q - point)) ∧
      (¬ npNorm (best - point) > 10 →
        Utils.closest_projection_onto_line_segments point lines = some best) ∧
      (npNorm (best - point) > 10 →
        ∃ g, Utils.closest_projection_onto_line_segments point lines = some g ∧
          g ∈ lines.map (Utils.projection_onto_line point) ∧
          ∀ q ∈ lines.map (Utils.projection_onto_line point),
            npNorm (g - point) ≤ npNorm (q - point)) := by
  have hsrc : Utils.closest_projection_onto_line_segments point lines =
      Utils.closestProjectionClaim point lines := by
    simp only [Utils.closest_projection_onto_line_segments, Utils.closestProjectionClaim]
    rw [filter_fallback_eq_candidateLines]
  refine ⟨hsrc, ?_⟩
  have hcne : (Utils.candidateLines point lines).map (Utils.projection_onto_line point) ≠ [] := by
    simp only [ne_eq, List.map_eq_nil_iff]
    exact candidateLines_ne_nil point lines hne
  obtain ⟨best, hbest, hmem, hmin⟩ :=
    argminBy_eq_some (fun proj => npNorm (proj - point)) _ hcne
  refine ⟨best, hbest, hmem, hmin, ?_, ?_⟩
  · intro hle
    rw [hsrc]
    simp only [Utils.closestProjectionClaim, hbest]
    rw [if_neg hle]
  · intro hgt
    have hall : lines.map (Utils.projection_onto_line point) ≠ [] := by
      simp only [ne_eq, List.map_eq_nil_iff]
      exact hne
    obtain ⟨g, hg, hgmem, hgmin⟩ :=
      argminBy_eq_some (fun proj => npNorm (proj - point)) _ hall
    refine ⟨g, ?_, hgmem, hgmin⟩
    rw [hsrc]
    simp only [Utils.closestProjectionClaim, hbest]
    rw [if_pos hgt, hg]

/-- Witness for claim C3 at the single segment from (0,0) to (1,0) and the
point (0,1). -/
theorem closest_projection_selection_behaviour_witness :
    Utils.closest_projection_onto_line_segments (0, 1) [⟨(0, 0), (1, 0)⟩] =
      Utils.closestProjectionClaim (0, 1) [⟨(0, 0), (1, 0)⟩] :=
  (closest_projection_selection_behaviour (0, 1) [⟨(0, 0), (1, 0)⟩]
    (by simp)
    (by
      intro l hl
      simp only [List.mem_singleton] at hl
      subst hl
      norm_num [Utils.dot2, Utils.dir, Prod.mk_sub_mk])).1

/-- Claim C2: the per-robot path-deviation "RMSE" is
`sqrt(sum of Euclidean distances / number of positions)` — the root of the
MEAN of distances, not of squared distances — and on waypoints
`[(0,0),(10,0)]` with positions `[(5,1),(5,-1)]` both positions project to
`(5,0)`, the distances are 1 and 1, and the RMSE equals 1. -/
theorem rmse_is_root_of_mean_distance :
    (∀ (positions waypoints : List (ℝ × ℝ)) (cps : List (ℝ × ℝ)),
      positions.mapM (fun p => PPD.closest_projection_onto_line_segments p
        (PPD.linesOfWaypoints waypoints)) = some cps →
      PPD.rmseOfRobot positions waypoints =
        some (Real.sqrt
          ((List.zipWith (fun p cp => npNorm (p - cp)) positions cps).sum /
            positions.length))) ∧
    PPD.closest_projection_onto_line_segments (5, 1)
      (PPD.linesOfWaypoints [(0, 0), (10, 0)]) = some (5, 0) ∧
    PPD.closest_projection_onto_line_segments (5, -1)
      (PPD.linesOfWaypoints [(0, 0), (10, 0)]) = some (5, 0) ∧
    PPD.rmseOfRobot [(5, 1), (5, -1)] [(0, 0), (10, 0)] = some 1 := by
  have hlines : PPD.linesOfWaypoints [((0 : ℝ), (0 : ℝ)), (10, 0)] =
      [PPD.line_from_line_segment 0 0 10 0] := by
    simp [PPD.linesOfWaypoints, slidingPairs]
  have hline : PPD.line_from_line_segment (0 : ℝ) 0 10 0 = ⟨0, 0⟩ := by
    simp [PPD.line_from_line_segment]
  have hproj1 : PPD.projection_onto_line (5, 1) ⟨0, 0⟩ = ((5 : ℝ), (0 : ℝ)) := by
    simp [PPD.projection_onto_line]
  have hproj2 : PPD.projection_onto_line (5, -1) ⟨0, 0⟩ = ((5 : ℝ), (0 : ℝ)) := by
    simp [PPD.projection_onto_line]
  have hc1 : PPD.closest_projection_onto_line_segments (5, 1)
      (PPD.linesOfWaypoints [(0, 0), (10, 0)]) = some (5, 0) := by
    rw [hlines, hline]
    simp [PPD.closest_projection_onto_line_segments, argminBy, hproj1]
  have hc2 : PPD.closest_projection_onto_line_segments (5, -1)
      (PPD.linesOfWaypoints [(0, 0), (10, 0)]) = some (5, 0) := by
    rw [hlines, hline]
    simp [PPD.closest_projection_onto_line_segments, argminBy, hproj2]
  have hgen : ∀ (positions waypoints : List (ℝ × ℝ)) (cps : List (ℝ × ℝ)),
      positions.mapM (fun p => PPD.closest_projection_onto_line_segments p
        (PPD.linesOfWaypoints waypoints)) = some cps →
      PPD.rmseOfRobot positions waypoints =
        some (Real.sqrt
          ((List.zipWith (fun p cp => npNorm (p - cp)) positions cps).sum /
            positions.length)) := by
    intro positions waypoints cps h
    simp only [PPD.rmseOfRobot]
    rw [h]
    rfl
  refine ⟨hgen, hc1, hc2, ?_⟩
  have hmap : ([((5 : ℝ), (1 : ℝ)), (5, -1)]).mapM
      (fun p => PPD.closest_projection_onto_line_segments p
        (PPD.linesOfWaypoints [(0, 0), (10, 0)])) = some [(5, 0), (5, 0)] := by
    rw [List.mapM_cons, List.mapM_cons, List.mapM_nil, hc1, hc2]
    rfl
  rw [hgen _ _ _ hmap]
  have h1 : npNorm (((5 : ℝ), (1 : ℝ)) - (5, 0)) = 1 := by
    simp [npNorm, Prod.mk_sub_mk]
  have h2 : npNorm (((5 : ℝ), (-1 : ℝ)) - (5, 0)) = 1 := by
    norm_num [npNorm, Prod.mk_sub_mk]
  rw [show (List.zipWith (fun p cp => npNorm (p - cp))
      [((5 : ℝ), (1 : ℝ)), (5, -1)] [(5, 0), (5, 0)]).sum =
      npNorm ((5, 1) - (5, 0)) + npNorm ((5, -1) - (5, 0)) by simp]
  rw [h1, h2]
  norm_num

/-- Witness for claim C2: the general formula applied at the constructed
3-point example. -/
theorem rmse_is_root_of_mean_distance_witness :
    PPD.rmseOfRobot [(5, 1), (5, -1)] [(0, 0), (10, 0)] =
      some (Real.sqrt
        ((List.zipWith (fun p cp => npNorm (p - cp))
          [((5 : ℝ), (1 : ℝ)), (5, -1)] [(5, 0), (5, 0)]).sum /
          ([((5 : ℝ), (1 : ℝ)), (5, -1)]).length)) :=
  rmse_is_root_of_mean_distance.1 [(5, 1), (5, -1)] [(0, 0), (10, 0)]
    [(5, 0), (5, 0)]
    (by
      rw [List.mapM_cons, List.mapM_cons, List.mapM_nil,
        rmse_is_root_of_mean_distance.2.1, rmse_is_root_of_mean_distance.2.2.1]
      rfl)

/-- Claim C5: `projection_onto_line(p, line)` equals
`start + ((p - start)·v / (v·v)) * v` with `v = end - start`, and this point
is the orthogonal projection of `p` onto the infinite line through the
endpoints: the residual `proj - p` is orthogonal to `v`, and `proj` lies on
the line `start + t * v`. -/
theorem projection_onto_line_is_orthogonal_projection (p : ℝ × ℝ)
    (line : Utils.LinePoints)
    (hv : Utils.dot2 (Utils.dir line) (Utils.dir line) ≠ 0) :
    Utils.projection_onto_line p line =
      line.start + (Utils.dot2 (p - line.start) (Utils.dir line) /
        Utils.dot2 (Utils.dir line) (Utils.dir line)) • Utils.dir line ∧
    Utils.dot2 (Utils.projection_onto_line p line - p) (Utils.dir line) = 0 ∧
    ∃ t : ℝ, Utils.projection_onto_line p line = line.start + t • Utils.dir line := by
  refine ⟨rfl, ?_, ⟨_, rfl⟩⟩
  obtain ⟨⟨sx, sy⟩, ⟨ex, ey⟩⟩ := line
  obtain ⟨px, py⟩ := p
  simp only [Utils.projection_onto_line, Utils.dir, Utils.dot2, Prod.mk_sub_mk,
    Prod.smul_mk, Prod.mk_add_mk, smul_eq_mul] at *
  field_simp
  ring

/-- Witness for claim C5 at the concrete segment from (0,0) to (1,0) and the
point (0,1). -/
theorem projection_onto_line_is_orthogonal_projection_witness :
    Utils.dot2 (Utils.dir ⟨(0, 0), (1, 0)⟩) (Utils.dir ⟨(0, 0), (1, 0)⟩) ≠ 0 ∧
    (Utils.projection_onto_line (0, 1) ⟨(0, 0), (1, 0)⟩ =
      (Utils.LinePoints.mk (0, 0) (1, 0)).start +
        (Utils.dot2 ((0, 1) - (Utils.LinePoints.mk (0, 0) (1, 0)).start)
            (Utils.dir ⟨(0, 0), (1, 0)⟩) /
          Utils.dot2 (Utils.dir ⟨(0, 0), (1, 0)⟩) (Utils.dir ⟨(0, 0), (1, 0)⟩)) •
          Utils.dir ⟨(0, 0), (1, 0)⟩ ∧
      Utils.dot2 (Utils.projection_onto_line (0, 1) ⟨(0, 0), (1, 0)⟩ - (0, 1))
        (Utils.dir ⟨(0, 0), (1, 0)⟩) = 0 ∧
      ∃ t : ℝ, Utils.projection_onto_line (0, 1) ⟨(0, 0), (1, 0)⟩ =
        (Utils.LinePoints.mk (0, 0) (1, 0)).start + t • Utils.dir ⟨(0, 0), (1, 0)⟩) :=
  ⟨by norm_num [Utils.dot2, Utils.dir, Prod.mk_sub_mk],
   projection_onto_line_is_orthogonal_projection (0, 1) ⟨(0, 0), (1, 0)⟩
     (by norm_num [Utils.dot2, Utils.dir, Prod.mk_sub_mk])⟩

/-- Claim C6: a position lying exactly on a non-degenerate segment (on the
line through its endpoints, within its span) projects to itself, and its
Euclidean distance to the projection is zero. -/
theorem projection_of_point_on_segment_is_itself (p : ℝ × ℝ)
    (line : Utils.LinePoints)
    (hv : Utils.dot2 (Utils.dir line) (Utils.dir line) ≠ 0)
    (hon : ∃ t : ℝ, 0 ≤ t ∧ t ≤ 1 ∧ p = line.start + t • Utils.dir line) :
    Utils.projection_onto_line p line = p ∧
    npNorm (p - Utils.projection_onto_line p line) = 0 := by
  obtain ⟨t, _, _, hp⟩ := hon
  have hproj : Utils.projection_onto_line p line = p := by
    subst hp
    obtain ⟨⟨sx, sy⟩, ⟨ex, ey⟩⟩ := line
    simp only [Utils.projection_onto_line, Utils.dir, Utils.dot2, Prod.mk_sub_mk,
      Prod.smul_mk, Prod.mk_add_mk, smul_eq_mul, Prod.mk.injEq] at *
    constructor <;> (field_simp; ring)
  refine ⟨hproj, ?_⟩
  rw [hproj, sub_self]
  simp [npNorm]

/-- Witness for claim C6 at the midpoint (1,0) of the segment from (0,0) to
(2,0). -/
theorem projection_of_point_on_segment_is_itself_witness :
    (Utils.dot2 (Utils.dir ⟨(0, 0), (2, 0)⟩) (Utils.dir ⟨(0, 0), (2, 0)⟩) ≠ 0 ∧
      ∃ t : ℝ, 0 ≤ t ∧ t ≤ 1 ∧
        ((1 : ℝ), (0 : ℝ)) = (Utils.LinePoints.mk (0, 0) (2, 0)).start +
          t • Utils.dir ⟨(0, 0), (2, 0)⟩) ∧
    (Utils.projection_onto_line (1, 0) ⟨(0, 0), (2, 0)⟩ = (1, 0) ∧
      npNorm ((1, 0) - Utils.projection_onto_line (1, 0) ⟨(0, 0), (2, 0)⟩) = 0) := by
  have hv : Utils.dot2 (Utils.dir ⟨(0, 0), (2, 0)⟩) (Utils.dir ⟨(0, 0), (2, 0)⟩) ≠ 0 := by
    norm_num [Utils.dot2, Utils.dir, Prod.mk_sub_mk]
  have hon : ∃ t : ℝ, 0 ≤ t ∧ t ≤ 1 ∧
      ((1 : ℝ), (0 : ℝ)) = (Utils.LinePoints.mk (0, 0) (2, 0)).start +
        t • Utils.dir ⟨(0, 0), (2, 0)⟩ := by
    refine ⟨1 / 2, by norm_num, by norm_num, ?_⟩
    norm_num [Utils.dir, Prod.mk_sub_mk, Prod.smul_mk, Prod.mk_add_mk, Prod.ext_iff]
  exact ⟨⟨hv, hon⟩, projection_of_point_on_segment_is_itself (1, 0) ⟨(0, 0), (2, 0)⟩ hv hon⟩

/-- Claim C10: `projection_onto_line` is idempotent on every segment with
distinct endpoints. -/
theorem projection_onto_line_idempotent (p : ℝ × ℝ) (line : Utils.LinePoints)
    (hv : Utils.dot2 (Utils.dir line) (Utils.dir line) ≠ 0) :
    Utils.projection_onto_line (Utils.projection_onto_line p line) line =
      Utils.projection_onto_line p line := by
  obtain ⟨⟨sx, sy⟩, ⟨ex, ey⟩⟩ := line
  obtain ⟨px, py⟩ := p
  simp only [Utils.projection_onto_line, Utils.dir, Utils.dot2, Prod.mk_sub_mk,
    Prod.smul_mk, Prod.mk_add_mk, smul_eq_mul, Prod.mk.injEq] at *
  constructor <;> (field_simp; ring)

/-- Witness for claim C10 at the segment from (0,0) to (1,0) and the point
(3,7). -/
theorem projection_onto_line_idempotent_witness :
    Utils.projection_onto_line
      (Utils.projection_onto_line (3, 7) ⟨(0, 0), (1, 0)⟩) ⟨(0, 0), (1, 0)⟩ =
      Utils.projection_onto_line (3, 7) ⟨(0, 0), (1, 0)⟩ :=
  projection_onto_line_idempotent (3, 7) ⟨(0, 0), (1, 0)⟩
    (by norm_num [Utils.dot2, Utils.dir, Prod.mk_sub_mk])

/-- The length of the claim-side gradient estimate. -/
theorem gradientClaim_length (f : List ℝ) (dt : ℝ) :
    (LDJ.gradientClaim f dt).length = f.length := by
  simp [LDJ.gradientClaim]

/-- On arrays of length at least 2, the numpy slice-assembled gradient equals
the claim's index-wise description (one-sided at the boundaries, central in
the interior). -/
theorem npGradient_eq_gradientClaim (f : List ℝ) (dt : ℝ) (h : 2 ≤ f.length) :
    LDJ.npGradient f dt = LDJ.gradientClaim f dt := by
  have hn : ¬ f.length < 2 := by omega
  apply List.ext_getElem
  · simp only [LDJ.npGradient, hn, if_false, LDJ.gradientClaim, List.length_append,
      List.length_map, List.length_range, List.length_cons, List.length_nil]
    omega
  · intro i h1 h2
    have hi : i < f.length := by
      simpa [LDJ.gradientClaim] using h2
    simp only [LDJ.npGradient, hn, if_false, LDJ.gradientClaim, List.getElem_map,
      List.getElem_range]
    by_cases hi0 : i = 0
    · subst hi0
      rw [List.getElem_append_left (by
        simp only [List.length_append, List.length_cons, List.length_nil,
          List.length_map, List.length_range]
        omega)]
      rw [List.getElem_append_left (by
        simp only [List.length_cons, List.length_nil]
        omega)]
      simp
    · by_cases hilast : i = f.length - 1
      · rw [List.getElem_append_right (by
          simp only [List.length_append, List.length_cons, List.length_nil,
            List.length_map, List.length_range]
          omega)]
        rw [if_neg hi0, if_pos hilast]
        rw [List.getElem_singleton]
      · rw [List.getElem_append_left (by
          simp only [List.length_append, List.length_cons, List.length_nil,
            List.length_map, List.length_range]
          omega)]
        rw [List.getElem_append_right (by
          simp only [List.length_cons, List.length_nil]
          omega)]
        simp only [List.getElem_map, List.getElem_range, List.length_cons,
          List.length_nil]
        rw [if_neg hi0, if_neg hilast]
        have hidx : i - 1 + 2 = i + 1 := by omega
        rw [hidx]

/-- Claim C1: under the function's preconditions, `ldj` returns
`-ln((t_final - t_start)^3 / v_max^2 * J)` with `dt` the mean of consecutive
timestamp differences, jerk obtained from two successive gradient estimates
(central differences in the interior, one-sided at the boundaries), `J` the
Simpson's-rule integral of the squared jerk over
`linspace(t_start, t_final, N)`, and `v_max` the maximum speed of the
trace — that is, exactly the value of `ldjClaim`. -/
theorem ldj_matches_claimed_formula (velocities : List (List ℝ))
    (timesteps : List ℝ)
    (_hshape : ∀ row ∈ velocities, row.length = 2)
    (_hlen : timesteps.length = velocities.length)
    (hN : 2 ≤ velocities.length)
    (_hmono : ∀ d ∈ npDiff timesteps, 0 < d) :
    LDJ.ldj velocities timesteps = LDJ.ldjClaim velocities timesteps := by
  have hx : 2 ≤ (velocities.map fun row => row.getD 0 0).length := by
    simpa using hN
  have hy : 2 ≤ (velocities.map fun row => row.getD 1 0).length := by
    simpa using hN
  simp only [LDJ.ldj, LDJ.ldjClaim]
  rw [npGradient_eq_gradientClaim _ _ hx, npGradient_eq_gradientClaim _ _ hy,
    npGradient_eq_gradientClaim _ _ (by rw [gradientClaim_length]; exact hx),
    npGradient_eq_gradientClaim _ _ (by rw [gradientClaim_length]; exact hy)]

/-- Witness for claim C1 on the three-sample trace with velocities
`[[1,0],[2,0],[3,0]]` at times `[0,1,2]`. -/
theorem ldj_matches_claimed_formula_witness :
    LDJ.ldj [[1, 0], [2, 0], [3, 0]] [0, 1, 2] =
      LDJ.ldjClaim [[1, 0], [2, 0], [3, 0]] [0, 1, 2] :=
  ldj_matches_claimed_formula [[1, 0], [2, 0], [3, 0]] [0, 1, 2]
    (by intro row hr; fin_cases hr <;> rfl)
    (by rfl)
    (by norm_num)
    (by
      intro d hd
      simp [npDiff] at hd
      rcases hd with h | h <;> simp [h])

/-- Value of `getLastD` of a nonempty list does not depend on the default. -/
theorem getLastD_default_irrel {l : List ℝ} (h : l ≠ []) (d1 d2 : ℝ) :
    l.getLastD d1 = l.getLastD d2 := by
  cases l with
  | nil => exact absurd rfl h
  | cons x xs =>
    obtain ⟨y, hy⟩ := Option.isSome_iff_exists.mp
      (List.getLast?_isSome.mpr (List.cons_ne_nil x xs))
    simp [List.getLastD_eq_getLast?, hy]

/-- A head element is below the last element when all consecutive
differences are positive. -/
theorem lt_getLastD_of_diffs_pos (a : ℝ) (l : List ℝ) (hne : l ≠ [])
    (hd : ∀ d ∈ npDiff (a :: l), 0 < d) : a < l.getLastD 0 := by
  induction l generalizing a with
  | nil => exact absurd rfl hne
  | cons b rest ih =>
    have hab : 0 < b - a := hd _ (by simp [npDiff])
    cases rest with
    | nil =>
      simp only [List.getLastD_eq_getLast?, List.getLast?_singleton, Option.getD_some]
      linarith
    | cons c r =>
      have hb := ih b (by simp) (fun d hdm => hd d (List.mem_cons_of_mem _ hdm))
      rw [List.getLastD_cons, getLastD_default_irrel (by simp) b 0]
      linarith

/-- Strictly increasing timestamps of length at least 2 have
`t_start < t_final`. -/
theorem headD_lt_getLastD (t : List ℝ) (h2 : 2 ≤ t.length)
    (hmono : ∀ d ∈ npDiff t, 0 < d) : t.headD 0 < t.getLastD 0 := by
  cases t with
  | nil => simp at h2
  | cons a l =>
    cases l with
    | nil => simp at h2
    | cons b r =>
      have hlt := lt_getLastD_of_diffs_pos a (b :: r) (by simp) hmono
      rw [show (a :: b :: r).getLastD 0 = (b :: r).getLastD 0 from by
        rw [List.getLastD_cons]
        exact getLastD_default_irrel (by simp) a 0]
      simpa using hlt

/-- A single-sample trace has equal first and last timestamps. -/
theorem headD_eq_getLastD_of_length_one {t : List ℝ} (h : t.length = 1) :
    t.headD 0 = t.getLastD 0 := by
  cases t with
  | nil => simp at h
  | cons x xs =>
    cases xs with
    | nil => simp
    | cons y ys => simp at h

/-- Claim C7: `ldj` fails its assert preamble (returns no value) whenever it
is supplied fewer than 2 samples, mismatched lengths, timestamps that are
not strictly increasing, or a velocity row that is not 2-dimensional; under
the preconditions (equal lengths, at least 2 samples, strictly increasing
timestamps, `(N, 2)` velocities) no assertion fails and the LDJ value is
returned. -/
theorem ldj_precondition_behaviour (velocities : List (List ℝ))
    (timesteps : List ℝ) :
    (velocities.length < 2 → LDJ.ldjChecked velocities timesteps = none) ∧
    (timesteps.length ≠ velocities.length →
      LDJ.ldjChecked velocities timesteps = none) ∧
    ((∃ d ∈ npDiff timesteps, d ≤ 0) →
      LDJ.ldjChecked velocities timesteps = none) ∧
    ((∃ row ∈ velocities, row.length ≠ 2) →
      LDJ.ldjChecked velocities timesteps = none) ∧
    ((∀ row ∈ velocities, row.length = 2) →
      timesteps.length = velocities.length → 2 ≤ velocities.length →
      (∀ d ∈ npDiff timesteps, 0 < d) →
      LDJ.ldjChecked velocities timesteps =
        some (LDJ.ldj velocities timesteps)) := by
  refine ⟨?_, ?_, ?_, ?_, ?_⟩
  · intro hlt
    simp only [LDJ.ldjChecked]
    split_ifs with g1 g2 g3 g4 g5 <;> try rfl
    exfalso
    push_neg at g1 g3 g5
    have hlen1 : timesteps.length = 1 := by omega
    have := headD_eq_getLastD_of_length_one hlen1
    rw [this] at g5
    exact lt_irrefl _ g5
  · intro hne
    simp only [LDJ.ldjChecked]
    split_ifs <;> rfl
  · intro hex
    simp only [LDJ.ldjChecked]
    split_ifs with g1 g2 g3 g4 g5 <;> try rfl
    exfalso
    push_neg at g4
    obtain ⟨d, hdm, hdle⟩ := hex
    exact absurd (g4 d hdm) (not_lt.mpr hdle)
  · intro hex
    simp only [LDJ.ldjChecked]
    split_ifs with g1 g2 g3 g4 g5 <;> try rfl
    exfalso
    push_neg at g2
    obtain ⟨row, hrm, hr2⟩ := hex
    exact hr2 (g2 row hrm)
  · intro hshape hlen hN hmono
    simp only [LDJ.ldjChecked]
    rw [if_neg (by push_neg; omega),
      if_neg (not_not.mpr hshape),
      if_neg (not_not.mpr hlen),
      if_neg (not_not.mpr hmono),
      if_neg (not_not.mpr (headD_lt_getLastD timesteps (by omega) hmono))]

/-- Witness for claim C7: the positive part applied to the valid three-sample
trace, and the negative part applied to an empty input. -/
theorem ldj_precondition_behaviour_witness :
    LDJ.ldjChecked [[1, 0], [2, 0], [3, 0]] [0, 1, 2] =
      some (LDJ.ldj [[1, 0], [2, 0], [3, 0]] [0, 1, 2]) ∧
    LDJ.ldjChecked [] [] = none :=
  ⟨(ldj_precondition_behaviour [[1, 0], [2, 0], [3, 0]] [0, 1, 2]).2.2.2.2
    (by intro row hr; fin_cases hr <;> rfl)
    (by rfl)
    (by norm_num)
    (by
      intro d hd
      simp [npDiff] at hd
      rcases hd with h | h <;> simp [h]),
   (ldj_precondition_behaviour [] []).1 (by norm_num)⟩

/-- The robot count of `extract_data_from_file` (skip when
`started_at >= ignore_after`, count when the identity appears in some goal
area's history) equals the claim's description of the counted set. -/
theorem extract_count_eq_countReachedClaim (data : Junction.RunRecord) :
    (data.robots.countP fun r =>
      !decide (r.2.mission.started_at ≥ (50 : ℚ)) &&
        (data.goal_areas.map Prod.snd).any fun goal_area =>
          goal_area.history.any fun kv => r.1 == kv.1) =
      Junction.countReachedClaim data := by
  rw [Junction.countReachedClaim]
  apply List.countP_congr
  intro r _
  simp only [Bool.and_eq_true, Bool.not_eq_true', decide_eq_false_iff_not, not_le,
    List.any_eq_true, beq_iff_eq, decide_eq_true_eq]
  constructor
  · rintro ⟨h1, ga, hga, kv, hkv, heq⟩
    exact ⟨h1, ga, hga, kv, hkv, heq.symm⟩
  · rintro ⟨h1, ga, hga, kv, hkv, heq⟩
    exact ⟨h1, ga, hga, kv, hkv, heq.symm⟩

/-- Claim C4: `extract_data_from_file` counts exactly the robots whose
mission start time falls within the 50-second observation window
(`started_at < 50`) and whose identity appears in the recorded history of
some goal area, and returns `1 / (window / count)` with `window = 50`; in
particular 10 robots reached within the window yields `0.2`. -/
theorem throughput_formula (data : Junction.RunRecord) :
    (0 < Junction.countReachedClaim data →
      Junction.extract_data_from_file data =
        some (1 / (50 / (Junction.countReachedClaim data : ℚ)))) ∧
    (Junction.countReachedClaim data = 10 →
      Junction.extract_data_from_file data = some 0.2) := by
  have hc := extract_count_eq_countReachedClaim data
  constructor
  · intro h
    simp only [Junction.extract_data_from_file]
    rw [hc, if_neg (by omega)]
  · intro h10
    simp only [Junction.extract_data_from_file]
    rw [hc, h10, if_neg (by omega)]
    norm_num

/-- Witness for claim C4: a run with ten robots, all starting inside the
window and all recorded in a goal area, yields throughput 0.2. -/
theorem throughput_formula_witness :
    Junction.extract_data_from_file sampleJunctionRun = some 0.2 :=
  (throughput_formula sampleJunctionRun).2 (by decide)

/-- Claim C9: when no robot both starts within the observation window and
appears in a goal area's history, the computation `1 / (50 / 0)` raises
`ZeroDivisionError` (no value is returned) instead of producing a
throughput of 0. -/
theorem throughput_zero_arrivals_division_error (data : Junction.RunRecord)
    (h : Junction.countReachedClaim data = 0) :
    Junction.extract_data_from_file data = none ∧
    Junction.extract_data_from_file data ≠ some 0 := by
  have hc := extract_count_eq_countReachedClaim data
  have hnone : Junction.extract_data_from_file data = none := by
    simp only [Junction.extract_data_from_file]
    rw [hc, if_pos h]
  exact ⟨hnone, by simp [hnone]⟩

/-- Witness for claim C9: the run with no robots. -/
theorem throughput_zero_arrivals_division_error_witness :
    Junction.extract_data_from_file emptyJunctionRun = none ∧
    Junction.extract_data_from_file emptyJunctionRun ≠ some 0 :=
  throughput_zero_arrivals_division_error emptyJunctionRun (by decide)

/-- Claim C8: a filename that does not match
`num-robots-(\d+)-seed-(\d+).json` makes the batch per-file processing step
fail its assertion before the file is read: whatever the file's content —
even a perfectly well-formed record — the result is a failure, never a skip
or a recovery. -/
theorem process_file_requires_matching_filename (name : String)
    (content : Option Circle.CircleRun)
    (h : Circle.parseGroups name = none) :
    Circle.process_file name content = none := by
  simp only [Circle.process_file, h]

/-- Witness for claim C8: the filename `results.json` does not match the
pattern, so processing fails even on an unread file. -/
theorem process_file_requires_matching_filename_witness :
    Circle.process_file "results.json" none = none :=
  process_file_requires_matching_filename "results.json" none (by decide)
